import Mathlib

set_option maxRecDepth 20000

/-!
Shallow embedding of the content-normalization and access-gate core of
`src/app.py` (a personal website), together with theorems settling the
frozen claims about it.  Python strings are modelled as `List Char`
(sequences of code points), machine integers as `Nat`/`Int`, JSON string
fields that may be absent or `null` as an explicit three-way type, and
exceptions as `Except`.
-/

namespace Website

/-- Python strings are sequences of code points. -/
abbrev Str := List Char

/-- Convert a Lean string literal to the `List Char` model. -/
def S (s : String) : Str := s.data

/-! ### Python string primitives used by `app.py` -/

/-- The ASCII whitespace characters recognised by Python's `str.split()` /
`str.strip()` (for the ASCII range): space, tab, newline, carriage return,
vertical tab, form feed. -/
def pyIsSpace (c : Char) : Bool :=
  c == ' ' || c == '\t' || c == '\n' || c == '\x0d' || c == '\x0b' || c == '\x0c'

/-- Python `str.strip()`: remove leading and trailing whitespace. -/
def pyStrip (l : Str) : Str :=
  ((l.dropWhile pyIsSpace).reverse.dropWhile pyIsSpace).reverse

/-- Worker for Python `str.split()` (no separator): `acc` holds the current
word reversed; whitespace runs end words, empty words are never emitted. -/
def splitWsAux : Str → Str → List Str
  | [], [] => []
  | [], acc => [acc.reverse]
  | c :: rest, acc =>
      if pyIsSpace c then
        match acc with
        | [] => splitWsAux rest []
        | _ => acc.reverse :: splitWsAux rest []
      else splitWsAux rest (c :: acc)

/-- Python `str.split()` with no arguments: split on whitespace runs,
discarding empty strings (which both collapses runs and trims the ends). -/
def pySplitWs (l : Str) : List Str := splitWsAux l []

/-! ### Date utility (`parse_date_ymd`, `days_between`)

`datetime.strptime(s, "%Y-%m-%d")` matches `s` against the regex
`\d\d\d\d-(1[0-2]|0[1-9]|[1-9])-(3[01]|[12]\d|0[1-9]|[1-9])` anchored on
both sides (the whole string must be consumed), then validates the result
as a proleptic-Gregorian calendar date with year at least 1 (a four-digit
year is at most 9999 automatically).  Note the month and the day may be a
*single* digit: `strptime` is lenient there. -/

/-- Numeric value of a digit character. -/
def digitVal (c : Char) : Nat := c.toNat - 48

/-- Gregorian leap-year test. -/
def isLeap (y : Nat) : Bool := (y % 4 == 0 && y % 100 != 0) || y % 400 == 0

/-- Number of days in month `m` (1-based) of year `y`. -/
def daysInMonth (y m : Nat) : Nat :=
  if m = 2 then (if isLeap y then 29 else 28)
  else if m = 4 || m = 6 || m = 9 || m = 11 then 30
  else 31

/-- Days in year `y` strictly before the first day of month `m`. -/
def daysBeforeMonth (y m : Nat) : Nat :=
  (List.range (m - 1)).foldl (fun acc i => acc + daysInMonth y (i + 1)) 0

/-- Proleptic-Gregorian ordinal of the date `y-m-d`
(`date(1,1,1).toordinal() = 1`), as computed by CPython's `datetime`. -/
def toOrdinal (y m d : Nat) : Nat :=
  365 * (y - 1) + (y - 1) / 4 - (y - 1) / 100 + (y - 1) / 400
    + daysBeforeMonth y m + d

/-- Value of a two-digit-character group. -/
def twoDigitVal (a b : Char) : Nat := 10 * digitVal a + digitVal b

/-- Value of a four-digit-character group. -/
def yearVal (a b c d : Char) : Nat :=
  1000 * digitVal a + 100 * digitVal b + 10 * digitVal c + digitVal d

/-- The `%d` field of `strptime`: one digit `[1-9]`, or two digits with
value `01`–`31` (regex `3[01]|[12]\d|0[1-9]`). -/
def parseDayEnd : Str → Option Nat
  | [d1] => if d1.isDigit && 1 ≤ digitVal d1 then some (digitVal d1) else none
  | [d1, d2] =>
      if d1.isDigit && d2.isDigit && 1 ≤ twoDigitVal d1 d2 && twoDigitVal d1 d2 ≤ 31 then
        some (twoDigitVal d1 d2)
      else none
  | _ => none

/-- The `%m-%d` tail of `strptime "%Y-%m-%d"`: a one- or two-digit month
`1`–`12` (regex `1[0-2]|0[1-9]|[1-9]`), a literal `-`, then the day,
which must reach the end of the string. -/
def month1 (m1 : Char) (rest : Str) : Option (Nat × Nat) :=
  if m1.isDigit && 1 ≤ digitVal m1 then
    (parseDayEnd rest).map (fun d => (digitVal m1, d))
  else none

def month2 (m1 m2 : Char) (rest : Str) : Option (Nat × Nat) :=
  if m1.isDigit && m2.isDigit && 1 ≤ twoDigitVal m1 m2 && twoDigitVal m1 m2 ≤ 12 then
    (parseDayEnd rest).map (fun d => (twoDigitVal m1 m2, d))
  else none

def parseMonthDay : Str → Option (Nat × Nat)
  | [m1, c] => if c = '-' then month1 m1 [] else none
  | m1 :: c :: c2 :: rest2 =>
      if c = '-' then month1 m1 (c2 :: rest2)
      else if c2 = '-' then month2 m1 c rest2
      else none
  | _ => none

/-- Parse as `datetime.strptime(s, "%Y-%m-%d")` does, returning `none` on
failure: four digits,
`-`, month, `-`, day, nothing left over, and the triple must be a valid
calendar date with year ≥ 1. -/
def parseYmd : Str → Option (Nat × Nat × Nat)
  | a :: b :: c :: d :: e :: rest =>
      if e = '-' && a.isDigit && b.isDigit && c.isDigit && d.isDigit then
        match parseMonthDay rest with
        | some (m, dd) =>
            if 1 ≤ yearVal a b c d && dd ≤ daysInMonth (yearVal a b c d) m then
              some (yearVal a b c d, m, dd)
            else none
        | none => none
      else none
  | _ => none

/-- A *strict* `YYYY-MM-DD` parser, in the words of the claim: exactly
four digits, `-`, exactly two digits, `-`, exactly two digits, denoting a
valid calendar date.  (The code's `strptime`-based parser is more lenient:
it also accepts single-digit months and days.) -/
def strictYmd : Str → Option (Nat × Nat × Nat)
  | [y1, y2, y3, y4, '-', m1, m2, '-', d1, d2] =>
      if y1.isDigit && y2.isDigit && y3.isDigit && y4.isDigit &&
          m1.isDigit && m2.isDigit && d1.isDigit && d2.isDigit &&
          1 ≤ yearVal y1 y2 y3 y4 &&
          1 ≤ twoDigitVal m1 m2 && twoDigitVal m1 m2 ≤ 12 &&
          1 ≤ twoDigitVal d1 d2 &&
          twoDigitVal d1 d2 ≤ daysInMonth (yearVal y1 y2 y3 y4) (twoDigitVal m1 m2) then
        some (yearVal y1 y2 y3 y4, twoDigitVal m1 m2, twoDigitVal d1 d2)
      else none
  | _ => none

/-- The function `parse_date_ymd` from `app.py`, reduced to its sort key: the ordinal of
the parsed date, with any parse failure yielding `datetime.min`, whose
ordinal is 1. -/
def parse_date_ymd (s : Str) : Nat :=
  match parseYmd s with
  | some (y, m, d) => toOrdinal y m d
  | none => 1

/-- The function `days_between` from `app.py`: inclusive day count, 0 when either bound
fails to parse or the end precedes the start.  The Python body is wrapped
in `try/except Exception`, so the function never raises; here it is total. -/
def days_between (start_ymd end_ymd : Str) : Nat :=
  match parseYmd start_ymd, parseYmd end_ymd with
  | some (ys, ms, ds), some (ye, me, de) =>
      if toOrdinal ys ms ds ≤ toOrdinal ye me de then
        toOrdinal ye me de - toOrdinal ys ms ds + 1
      else 0
  | _, _ => 0

/-! ### JSON string-ish fields

A string-valued JSON field in a raw record is either absent from the
object, an explicit `null`, or a string.  (`dict.get(k)` returns `None`
both for an absent key and an explicit `null`; `dict.get(k, d)` returns
`d` only when the key is absent.) -/

/-- A JSON field that the code treats as a string: absent, `null`, or a
string value. -/
inductive JStr
  | absent
  | null
  | str (s : Str)
deriving DecidableEq

/-- Python `st.get(k) or dflt` for a string-ish field: absent and `null`
give `None`, which is falsy; the empty string is falsy too. -/
def pyGetOr (f : JStr) (dflt : Str) : Str :=
  match f with
  | .str s => if s.isEmpty then dflt else s
  | _ => dflt

/-- Python `str(st.get(k, ""))` for a string-ish field: an absent key gives
`""`; an explicit `null` gives `str(None) = "None"`; a string is itself. -/
def pyStrGet (f : JStr) : Str :=
  match f with
  | .absent => []
  | .null => S "None"
  | .str s => s

/-! ### Travel normalizer (`load_travel_stops`) -/

/-- A raw record of `travel/stops.json` (string-ish fields; `lat`/`lng`
are passed through untouched, so they stay opaque). -/
structure RawStop where
  id : JStr := .absent
  place : JStr := .absent
  country : JStr := .absent
  lat : JStr := .absent
  lng : JStr := .absent
  start_date : JStr := .absent
  end_date : JStr := .absent
  type : JStr := .absent
  notes_md : JStr := .absent
deriving DecidableEq

/-- A normalized travel stop, as built by the loop body of
`load_travel_stops`. -/
structure Stop where
  id : Str
  place : Str
  country : Str
  lat : JStr
  lng : JStr
  start_date : Str
  end_date : Str
  days : Nat
  type : Str
  notes_md : Str
deriving DecidableEq

/-- The loop body of `load_travel_stops` (lines 70–91 of `app.py`). -/
def normalizeStop (st : RawStop) : Stop :=
  let start := pyStrGet st.start_date
  let end_ := pyStrGet st.end_date
  let raw_id := pyStrip (pyGetOr st.id [])
  let place := pyStrip (pyGetOr st.place [])
  let fallback_id :=
    (place.map (fun c => if c.toLower = ' ' then '-' else c.toLower)) ++ '-' :: start
  let stop_id := if raw_id.isEmpty then fallback_id else raw_id
  { id := stop_id
    place := place
    country := pyStrip (pyGetOr st.country [])
    lat := st.lat
    lng := st.lng
    start_date := start
    end_date := end_
    days := days_between start end_
    type := pyStrip (pyGetOr st.type (S "visited"))
    notes_md := pyGetOr st.notes_md [] }

/-- Sort key used at line 93: `parse_date_ymd(x["start_date"])`. -/
def stopKey (x : Stop) : Nat := parse_date_ymd x.start_date

/-- The Boolean "comes no later than" relation of the descending sort
(`reverse=True` on the key). -/
def stopGe (a b : Stop) : Bool := stopKey b ≤ stopKey a

/-- The function `load_travel_stops`, as a pure function of the decoded list of raw
records: normalize each record, then sort descending by parsed start date
(a stable sort, like Python's `list.sort`). -/
def load_travel_stops (stops : List RawStop) : List Stop :=
  (stops.map normalizeStop).mergeSort stopGe

/-! ### Slug derivation (`slugify`) -/

/-- Python `filename.rsplit("/", 1)[-1]`: the part after the last `/`
(the whole string when there is none). -/
def rsplitLastSlash (l : Str) : Str :=
  (l.reverse.takeWhile (fun c => c ≠ '/')).reverse

/-- Python `name.replace(".md", "")`: remove *every* occurrence of `.md`,
scanning left to right. -/
def replaceMd : Str → Str
  | '.' :: 'm' :: 'd' :: rest => replaceMd rest
  | c :: rest => c :: replaceMd rest
  | [] => []

/-- Python `stem.split("-", n)`: split on `-` at most `n` times, keeping
empty parts; the last part carries everything after the `n`-th separator. -/
def splitDashMax : Nat → Str → List Str
  | 0, l => [l]
  | n + 1, l =>
      match l.dropWhile (fun c => c ≠ '-') with
      | [] => [l]
      | _ :: tail => l.takeWhile (fun c => c ≠ '-') :: splitDashMax n tail

/-- The function `slugify` from `app.py` (lines 97–101): basename, remove `.md`,
`split("-", 3)`, and take the last part when there are four parts. -/
def slugify (filename : Str) : Str :=
  if 4 ≤ (splitDashMax 3 (replaceMd (rsplitLastSlash filename))).length then
    (splitDashMax 3 (replaceMd (rsplitLastSlash filename))).getLastD []
  else replaceMd (rsplitLastSlash filename)

/-- Drop everything up to and including the first `-`; `none` when the
string has no `-`. -/
def dropThroughDash (l : Str) : Option Str :=
  match l.dropWhile (fun c => c ≠ '-') with
  | [] => none
  | _ :: tail => some tail

/-- Everything after the `n`-th `-`; `none` when the string has fewer
than `n` dashes. -/
def afterNDashes : Nat → Str → Option Str
  | 0, l => some l
  | n + 1, l => (dropThroughDash l).bind (afterNDashes n)

/-- The slug rule in the words of the claim: strip the *extension* (a
trailing `.md` only), then take everything after the third hyphen when
the stem has four or more hyphen-delimited segments, else the stem. -/
def claimSlug (filename : Str) : Str :=
  let stem :=
    if filename.reverse.take 3 = ('d' :: 'm' :: '.' :: []) then
      filename.take (filename.length - 3)
    else filename
  match afterNDashes 3 stem with
  | some s => s
  | none => stem

/-- The amended slug rule, matching the code: remove every occurrence of
`.md` from the basename, then take everything after the third hyphen when
the stem has at least three hyphens, else the whole stem. -/
def amendedSlug (filename : Str) : Str :=
  match afterNDashes 3 (replaceMd (rsplitLastSlash filename)) with
  | some s => s
  | none => replaceMd (rsplitLastSlash filename)

/-! ### Excerpts (`plain_excerpt`) -/

/-- Model of `" ".join(md_text.replace("\n", " ").split())`: collapse whitespace
runs to single spaces and trim. -/
def collapseWs (t : Str) : Str :=
  List.intercalate (S " ") (pySplitWs (t.map (fun c => if c = '\n' then ' ' else c)))

/-- The function `plain_excerpt` from `app.py` (lines 140–144); the call site uses the
default `max_len = 120`. -/
def plain_excerpt (md_text : Str) (max_len : Nat) : Str :=
  if md_text.isEmpty then []
  else if max_len < (collapseWs md_text).length then
    (collapseWs md_text).take (max_len - 1) ++ ['…']
  else collapseWs md_text

/-! ### Access gate (`login`, `logout`)

The session's `scrapbook_authed` key is modelled as `Option Bool`:
`none` when the key is absent (`session.pop` removes it), `some b` when it
is set.  `session.get("scrapbook_authed")` is truthy exactly when the key
holds `True`. -/

/-- Truthiness of `session.get("scrapbook_authed")`. -/
def authedOf : Option Bool → Bool
  | some b => b
  | none => false

/-- HTTP method of a request to `/login`. -/
inductive Method
  | get
  | post
deriving DecidableEq

/-- Observable outcome of the `login` view: a 303 redirect to the
scrapbook page, a 303 redirect to a given URL, or a render of the login
template (with or without a queued "Incorrect password." flash). -/
inductive LoginResult
  | redirectScrapbook
  | redirectTo (url : Str)
  | renderLogin (flashedIncorrect : Bool)
deriving DecidableEq

/-- The `login` view (lines 258–274 of `app.py`) as a function of the
session value, the method, the submitted form password
(`request.form.get("password", "")`, so an absent field is `""`), the
configured secret (`os.getenv("SCRAPBOOK_PASSWORD", "")`, so an unset
variable is `""`), and the `next` form field.  Returns the new session
value and the response. -/
def login (sess : Option Bool) (method : Method)
    (password expected : Str) (nextField : JStr) :
    Option Bool × LoginResult :=
  if authedOf sess then (sess, .redirectScrapbook)
  else
    match method with
    | .post =>
        if expected ≠ [] ∧ password = expected then
          (some true, .redirectTo (pyGetOr nextField (S "/scrapbook")))
        else (sess, .renderLogin true)
    | .get => (sess, .renderLogin false)

/-- The `logout` view (lines 276–279): `session.pop("scrapbook_authed",
None)` removes the key unconditionally. -/
def logout (_sess : Option Bool) : Option Bool := none

/-! ### Content loader (`load_json`)

`path.open("r", encoding="utf-8")` followed by `json.load(f)` has five
relevant outcomes: the file is missing (`FileNotFoundError`); opening
fails for another reason such as a directory or denied permission
(`IsADirectoryError`/`PermissionError`, both `OSError`s); the bytes are
not valid UTF-8 (`UnicodeDecodeError`, raised while `json.load` reads the
stream — *not* a `json.JSONDecodeError`); the decoded text is not valid
JSON (`json.JSONDecodeError`); or a value is decoded.  The `except`
clause catches only `FileNotFoundError` and `json.JSONDecodeError`. -/

/-- Exceptions that the modelled code can raise to its caller. -/
inductive PyExc
  | osError
  | unicodeDecodeError
  | attributeError
deriving DecidableEq

/-- Outcome of opening and JSON-decoding the file at a path. -/
inductive ReadOutcome (J : Type)
  | fileNotFound
  | openError
  | undecodableBytes
  | invalidJson
  | ok (v : J)
deriving DecidableEq

/-- The function `load_json` from `app.py` (lines 39–44), as a function of the read
outcome at the path: `FileNotFoundError` and `JSONDecodeError` are caught
and give `default`; other failures propagate. -/
def load_json {J : Type} (r : ReadOutcome J) (default : J) : Except PyExc J :=
  match r with
  | .fileNotFound => .ok default
  | .openError => .error .osError
  | .undecodableBytes => .error .unicodeDecodeError
  | .invalidJson => .ok default
  | .ok v => .ok v

/-! ### Portfolio normalizer (`load_portfolio_items`) -/

/-- A JSON field holding a number, used for `year` (`x["year"] or 0`
treats `null`, an absent key mapped to `None`, and `0` as falsy). -/
inductive JNum
  | absent
  | null
  | num (n : Int)
deriving DecidableEq

/-- A JSON field holding a list, passed through with `[]` as the
`dict.get` default (an explicit `null` passes through as `None`). -/
inductive JList
  | absent
  | null
  | list (xs : List Str)
deriving DecidableEq

/-- A raw record of `portfolio/items.json`. -/
structure RawItem where
  type : JStr := .absent
  title : JStr := .absent
  slug : JStr := .absent
  year : JNum := .absent
  tags : JList := .absent
  cover_image : JStr := .absent
  description_md : JStr := .absent
  images : JList := .absent
  video_url : JStr := .absent
  credits : JList := .absent
deriving DecidableEq

/-- A normalized portfolio item. -/
structure Item where
  type : Str
  title : Str
  slug : Str
  year : JNum
  tags : JList
  cover_image : JStr
  description_md : JStr
  excerpt : Str
  images : JList
  video_url : JStr
  credits : JList
deriving DecidableEq

/-- Python `it.get(k, "").strip()` on a string-ish field: an absent key
falls back to `""` and strips to `""`; an explicit `null` is `None`, and
`None.strip()` raises `AttributeError`; a string is stripped. -/
def stripGetD (f : JStr) : Except PyExc Str :=
  match f with
  | .absent => .ok []
  | .null => .error .attributeError
  | .str s => .ok (pyStrip s)

/-- Python `it.get(k, dflt)` for a string-ish field (no strip): only an
absent key takes the default. -/
def jstrGetD (f : JStr) (dflt : JStr) : JStr :=
  match f with
  | .absent => dflt
  | x => x

/-- Python `it.get(k, [])` for a list field. -/
def jlistGetD (f : JList) : JList :=
  match f with
  | .absent => .list []
  | x => x

/-- Python `it.get("year")`: an absent key becomes `None`. -/
def jnumGet (f : JNum) : JNum :=
  match f with
  | .absent => .null
  | x => x

/-- Model of `plain_excerpt(it.get("description_md", ""))`: `None` and `""` are
falsy and give `""`; a string goes through `plain_excerpt` with the
default `max_len = 120`. -/
def plainExcerptField (f : JStr) : Str :=
  match f with
  | .str s => plain_excerpt s 120
  | _ => []

/-- The loop body of `load_portfolio_items` (lines 152–167): strips
`type`, `title` and `slug` — raising `AttributeError` when one of them is
an explicit `null` — and passes the remaining fields through with
defaults. -/
def normalizePortfolioItem (it : RawItem) : Except PyExc Item :=
  match stripGetD it.type with
  | .error e => .error e
  | .ok ty =>
    match stripGetD it.title with
    | .error e => .error e
    | .ok ti =>
      match stripGetD it.slug with
      | .error e => .error e
      | .ok sl =>
        .ok
          { type := ty
            title := ti
            slug := sl
            year := jnumGet it.year
            tags := jlistGetD it.tags
            cover_image := jstrGetD it.cover_image (.str [])
            description_md := jstrGetD it.description_md (.str [])
            excerpt := plainExcerptField (jstrGetD it.description_md (.str []))
            images := jlistGetD it.images
            video_url := jstrGetD it.video_url (.str [])
            credits := jlistGetD it.credits }

/-- Sort key at line 169: `x["year"] or 0`, descending. -/
def itemKey (x : Item) : Int :=
  match x.year with
  | .num n => n
  | _ => 0

/-- The function `load_portfolio_items` as a pure function of the decoded list of raw
records: normalize each (any `AttributeError` propagates), then sort
descending by `year or 0`. -/
def load_portfolio_items (items : List RawItem) : Except PyExc (List Item) := do
  let normalized ← items.mapM normalizePortfolioItem
  .ok (normalized.mergeSort (fun a b => itemKey b ≤ itemKey a))

/-- A travel-stop record whose string fields are all explicit `null`
(used to contrast the travel normalizer with the portfolio one). -/
def allNullStop : RawStop :=
  { id := JStr.null, place := JStr.null, country := JStr.null,
    type := JStr.null, notes_md := JStr.null }

/-! ### Helper lemmas -/

theorem parseDayEnd_pos (l : Str) (d : Nat) (h : parseDayEnd l = some d) : 1 ≤ d := by
  rcases l with _ | ⟨d1, _ | ⟨d2, _ | ⟨d3, t⟩⟩⟩
  · simp [parseDayEnd] at h
  · simp only [parseDayEnd] at h
    split at h
    · rename_i hc
      simp only [Bool.and_eq_true, decide_eq_true_eq] at hc
      cases h
      exact hc.2
    · exact absurd h (by simp)
  · simp only [parseDayEnd] at h
    split at h
    · rename_i hc
      simp only [Bool.and_eq_true, decide_eq_true_eq] at hc
      cases h
      exact hc.1.2
    · exact absurd h (by simp)
  · simp [parseDayEnd] at h

theorem month1_day_pos (m1 : Char) (rest : Str) (m d : Nat)
    (h : month1 m1 rest = some (m, d)) : 1 ≤ d := by
  unfold month1 at h
  split at h
  · obtain ⟨d0, hd0, heq⟩ := Option.map_eq_some'.mp h
    cases heq
    exact parseDayEnd_pos _ _ hd0
  · exact absurd h (by simp)

theorem month2_day_pos (m1 m2 : Char) (rest : Str) (m d : Nat)
    (h : month2 m1 m2 rest = some (m, d)) : 1 ≤ d := by
  unfold month2 at h
  split at h
  · obtain ⟨d0, hd0, heq⟩ := Option.map_eq_some'.mp h
    cases heq
    exact parseDayEnd_pos _ _ hd0
  · exact absurd h (by simp)

theorem parseMonthDay_day_pos (l : Str) (m d : Nat)
    (h : parseMonthDay l = some (m, d)) : 1 ≤ d := by
  rcases l with _ | ⟨m1, _ | ⟨c, _ | ⟨c2, rest2⟩⟩⟩
  · simp [parseMonthDay] at h
  · simp [parseMonthDay] at h
  · simp only [parseMonthDay] at h
    split at h
    · exact month1_day_pos _ _ _ _ h
    · exact absurd h (by simp)
  · simp only [parseMonthDay] at h
    split at h
    · exact month1_day_pos _ _ _ _ h
    · split at h
      · exact month2_day_pos _ _ _ _ _ h
      · exact absurd h (by simp)

theorem parseYmd_day_pos (s : Str) (y m d : Nat)
    (h : parseYmd s = some (y, m, d)) : 1 ≤ d := by
  rcases s with _ | ⟨a, _ | ⟨b, _ | ⟨c, _ | ⟨dd, _ | ⟨e, rest⟩⟩⟩⟩⟩
  · simp [parseYmd] at h
  · simp [parseYmd] at h
  · simp [parseYmd] at h
  · simp [parseYmd] at h
  · simp [parseYmd] at h
  · simp only [parseYmd] at h
    split at h
    · split at h
      · rename_i m0 d0 hm
        split at h
        · cases h
          exact parseMonthDay_day_pos _ _ _ hm
        · exact absurd h (by simp)
      · exact absurd h (by simp)
    · exact absurd h (by simp)

theorem one_le_parse_date_ymd (s : Str) : 1 ≤ parse_date_ymd s := by
  unfold parse_date_ymd
  split
  · rename_i y m d h
    have hd : 1 ≤ d := parseYmd_day_pos s y m d h
    unfold toOrdinal
    omega
  · omega

theorem getLastD_indep {α : Type} : ∀ (l : List α) (a b : α), l ≠ [] → l.getLastD a = l.getLastD b
  | [], _, _, h => absurd rfl h
  | [_], _, _, _ => rfl
  | _ :: _ :: _, _, _, _ => by simp only [List.getLastD_cons]

theorem splitDashMax_succ (n : Nat) (l : Str) :
    splitDashMax (n + 1) l =
      match l.dropWhile (fun c => c ≠ '-') with
      | [] => [l]
      | _ :: tail => l.takeWhile (fun c => c ≠ '-') :: splitDashMax n tail := rfl

theorem afterNDashes_succ (n : Nat) (l : Str) :
    afterNDashes (n + 1) l = (dropThroughDash l).bind (afterNDashes n) := rfl

theorem dropThroughDash_eq (l : Str) :
    dropThroughDash l =
      match l.dropWhile (fun c => c ≠ '-') with
      | [] => none
      | _ :: tail => some tail := rfl

theorem splitDashMax_ne_nil (n : Nat) (l : Str) : splitDashMax n l ≠ [] := by
  cases n with
  | zero => simp [splitDashMax]
  | succ n =>
      rw [splitDashMax_succ]
      split <;> simp

theorem splitDashMax_spec (n : Nat) : ∀ l : Str,
    ((splitDashMax n l).length = n + 1 ∧
      afterNDashes n l = some ((splitDashMax n l).getLastD [])) ∨
    ((splitDashMax n l).length ≤ n ∧ afterNDashes n l = none) := by
  induction n with
  | zero =>
      intro l
      left
      exact ⟨rfl, rfl⟩
  | succ n ih =>
      intro l
      rcases h : l.dropWhile (fun c => c ≠ '-') with _ | ⟨c, tail⟩
      · right
        have hs : splitDashMax (n + 1) l = [l] := by
          rw [splitDashMax_succ, h]
        have ha : afterNDashes (n + 1) l = none := by
          rw [afterNDashes_succ, dropThroughDash_eq, h]
          rfl
        refine ⟨?_, ha⟩
        rw [hs]
        simp only [List.length_singleton]
        omega
      · have hs : splitDashMax (n + 1) l =
            l.takeWhile (fun c => c ≠ '-') :: splitDashMax n tail := by
          rw [splitDashMax_succ, h]
        have ha : afterNDashes (n + 1) l = afterNDashes n tail := by
          rw [afterNDashes_succ, dropThroughDash_eq, h]
          rfl
        rcases ih tail with ⟨h1, h2⟩ | ⟨h1, h2⟩
        · left
          refine ⟨by rw [hs]; simp [h1], ?_⟩
          rw [hs, ha, h2, List.getLastD_cons]
          have := getLastD_indep (splitDashMax n tail) []
            (l.takeWhile (fun c => c ≠ '-')) (splitDashMax_ne_nil n tail)
          rw [this]
        · right
          refine ⟨?_, ha.trans h2⟩
          rw [hs]
          simp
          omega

theorem splitWsAux_words : ∀ (l acc : Str), (∀ c, c ∈ acc → pyIsSpace c = false) →
    ∀ w, w ∈ splitWsAux l acc → w ≠ [] ∧ ∀ c, c ∈ w → pyIsSpace c = false := by
  intro l
  induction l with
  | nil =>
      intro acc hacc w hw
      cases acc with
      | nil => simp [splitWsAux] at hw
      | cons a t =>
          simp only [splitWsAux, List.mem_singleton] at hw
          subst hw
          refine ⟨by simp, fun ch hc => hacc ch (List.mem_reverse.mp hc)⟩
  | cons c rest ih =>
      intro acc hacc w hw
      by_cases hsp : pyIsSpace c = true
      · cases acc with
        | nil =>
            rw [show splitWsAux (c :: rest) [] = splitWsAux rest [] from by
              simp [splitWsAux, hsp]] at hw
            exact ih [] (by simp) w hw
        | cons a t =>
            rw [show splitWsAux (c :: rest) (a :: t) = (a :: t).reverse :: splitWsAux rest [] from by
              simp [splitWsAux, hsp]] at hw
            rcases List.mem_cons.mp hw with rfl | hw
            · refine ⟨by simp, fun ch hc => hacc ch (List.mem_reverse.mp hc)⟩
            · exact ih [] (by simp) w hw
      · rw [show splitWsAux (c :: rest) acc = splitWsAux rest (c :: acc) from by
          simp [splitWsAux, hsp]] at hw
        refine ih (c :: acc) ?_ w hw
        intro ch hch
        rcases List.mem_cons.mp hch with rfl | hch
        · simpa using hsp
        · exact hacc ch hch

theorem normalizeStop_type (st : RawStop) :
    (normalizeStop st).type = pyStrip (pyGetOr st.type (S "visited")) := rfl

theorem stripGetD_ok (f : JStr) (h : f ≠ .null) : ∃ r, stripGetD f = .ok r := by
  cases f with
  | absent => exact ⟨[], rfl⟩
  | null => exact absurd rfl h
  | str s => exact ⟨pyStrip s, rfl⟩

/-! ### Claim theorems -/

/-- Claim C1 — Starting from an unauthenticated session, the login view is
fail-closed: when the configured expected secret is empty or unset it
never sets the session to Authorized (even for an empty submitted
password), and it sets the session to Authorized exactly when the request
is a POST, the expected secret is non-empty, and the submitted password
is exactly (case-sensitively) equal to it. -/
theorem login_fail_closed_and_exact_match :
    ∀ (sess : Option Bool) (method : Method) (password expected : Str) (nextField : JStr),
      authedOf sess = false →
      (expected = [] →
        authedOf (login sess method password expected nextField).1 = false) ∧
      (authedOf (login sess method password expected nextField).1 = true ↔
        method = .post ∧ expected ≠ [] ∧ password = expected) := by
  intro sess method password expected nextField h
  cases method with
  | get =>
      refine ⟨fun _ => by simp [login, h], ?_⟩
      rw [show (login sess .get password expected nextField).1 = sess by simp [login, h]]
      simp [h]
  | post =>
      by_cases hc : expected ≠ [] ∧ password = expected
      · have hcl : (login sess .post password expected nextField).1 = some true := by
          simp [login, h, hc]
        refine ⟨fun he => absurd he hc.1, ?_⟩
        rw [hcl]
        simp [hc, authedOf]
      · have hcl : (login sess .post password expected nextField).1 = sess := by
          simp [login, h, hc]
        rw [hcl]
        refine ⟨fun _ => h, ?_⟩
        rw [h]
        simp only [Bool.false_eq_true, false_iff]
        rintro ⟨-, hne, heq⟩
        exact hc ⟨hne, heq⟩

/-- Witness for C1 at a concrete input: with an unset secret and an empty
submitted password, a POST to login leaves the session unauthorized. -/
theorem login_fail_closed_and_exact_match_witness :
    authedOf (login none Method.post [] [] JStr.absent).1 = false :=
  (login_fail_closed_and_exact_match none Method.post [] [] JStr.absent rfl).1 rfl

/-- Claim C2, counterexample — The claim says `daysBetween` returns 0
whenever a bound fails *strict* `YYYY-MM-DD` parsing, but the code's
`strptime`-based parser also accepts single-digit months and days:
`"2024-1-1"` fails the strict format yet `days_between` returns 1 on it,
not 0. -/
theorem days_between_lenient_parse_counterexample :
    strictYmd (S "2024-1-1") = none ∧
    days_between (S "2024-1-1") (S "2024-1-1") = 1 := by
  constructor
  · decide
  · decide

/-- Claim C2, amended — `days_between` returns 0 if either bound fails the
code's `%Y-%m-%d` parse (four-digit year, one- *or* two-digit month and
day, valid calendar date) or the end precedes the start, and otherwise
returns the day difference plus 1; it holds on the claim's three concrete
examples.  The function is total (the Python body catches every
exception), so it never raises. -/
theorem days_between_amended_spec :
    (∀ s e : Str, parseYmd s = none → days_between s e = 0) ∧
    (∀ s e : Str, parseYmd e = none → days_between s e = 0) ∧
    (∀ (s e : Str) (ys ms ds ye me de : Nat),
      parseYmd s = some (ys, ms, ds) → parseYmd e = some (ye, me, de) →
      days_between s e =
        if toOrdinal ys ms ds ≤ toOrdinal ye me de then
          toOrdinal ye me de - toOrdinal ys ms ds + 1
        else 0) ∧
    days_between (S "2024-01-01") (S "2024-01-01") = 1 ∧
    days_between (S "2024-01-05") (S "2024-01-01") = 0 ∧
    days_between (S "bad") (S "2024-01-01") = 0 := by
  refine ⟨?_, ?_, ?_, by decide, by decide, by decide⟩
  · intro s e h
    simp [days_between, h]
  · intro s e h
    rcases h1 : parseYmd s with _ | ⟨⟨ys, ms, ds⟩⟩ <;> simp [days_between, h1, h]
  · intro s e ys ms ds ye me de h1 h2
    simp [days_between, h1, h2]

/-- Witness for C2: the amended theorem evaluated at a malformed bound and
at a concrete inclusive three-day span. -/
theorem days_between_amended_spec_witness :
    days_between (S "nope") (S "2024-01-01") = 0 ∧
    days_between (S "2024-01-01") (S "2024-01-03") = 3 := by
  obtain ⟨h1, h2, h3, h4⟩ := days_between_amended_spec
  refine ⟨h1 (S "nope") (S "2024-01-01") (by decide), ?_⟩
  have h := h3 (S "2024-01-01") (S "2024-01-03") 2024 1 1 2024 1 3 (by decide) (by decide)
  rw [h]
  decide

/-- Claim C8 — Logout always results in the Anonymous state (the session
key is removed, so the authorized flag reads false), and it is
idempotent: logging out twice yields the same session state as once. -/
theorem logout_always_anonymous_idempotent :
    ∀ sess : Option Bool,
      authedOf (logout sess) = false ∧ logout (logout sess) = logout sess :=
  fun _ => ⟨rfl, rfl⟩

/-- Claim C9 — A request to login from an already-Authorized session, with
any method and any submitted password, leaves the session value unchanged
and redirects to the scrapbook page; the outcome does not depend on the
submitted password or the configured secret. -/
theorem login_authorized_frame :
    ∀ (sess : Option Bool) (method : Method) (password expected : Str) (nextField : JStr),
      authedOf sess = true →
      login sess method password expected nextField = (sess, .redirectScrapbook) ∧
      (∀ (password2 expected2 : Str),
        login sess method password expected nextField =
          login sess method password2 expected2 nextField) := by
  intro sess method password expected nextField h
  constructor
  · simp [login, h]
  · intro password2 expected2
    simp [login, h]

/-- Witness for C9: an authorized session POSTing a wrong password is left
authorized and redirected to the scrapbook. -/
theorem login_authorized_frame_witness :
    login (some true) Method.post (S "wrong") (S "secret") JStr.absent
      = (some true, LoginResult.redirectScrapbook) :=
  (login_authorized_frame (some true) Method.post (S "wrong") (S "secret") JStr.absent rfl).1

/-- Claim C3 — For every input list of raw travel-stop records the
normalizer keeps every record (output length equals input length) and
sorts the output descending by the parsed start date; a record whose
start date fails to parse carries the minimal sort key (`datetime.min`),
so it sorts as the oldest possible date. -/
theorem load_travel_stops_length_and_sorted :
    ∀ stops : List RawStop,
      (load_travel_stops stops).length = stops.length ∧
      (load_travel_stops stops).Pairwise (fun a b => stopKey b ≤ stopKey a) ∧
      (∀ a, a ∈ load_travel_stops stops → parseYmd a.start_date = none →
        ∀ b, b ∈ load_travel_stops stops → stopKey a ≤ stopKey b) := by
  intro stops
  refine ⟨?_, ?_, ?_⟩
  · simp [load_travel_stops]
  · have hs : ((stops.map normalizeStop).mergeSort stopGe).Pairwise
        (fun a b => stopGe a b = true) := by
      refine List.sorted_mergeSort ?_ ?_ (stops.map normalizeStop)
      · intro a b c h1 h2
        simp only [stopGe, decide_eq_true_eq] at h1 h2 ⊢
        omega
      · intro a b
        simp only [stopGe]
        rcases Nat.le_total (stopKey b) (stopKey a) with h | h <;> simp [h]
    exact hs.imp (fun hab => by simpa [stopGe] using hab)
  · intro a _ hpa b hb
    have h1 : stopKey a = 1 := by simp [stopKey, parse_date_ymd, hpa]
    have h2 : 1 ≤ stopKey b := one_le_parse_date_ymd b.start_date
    omega

/-- Witness for C3: a two-record list (one malformed date, one valid)
keeps both records, and the malformed record's key is minimal. -/
theorem load_travel_stops_length_and_sorted_witness :
    (load_travel_stops
      [{ start_date := JStr.str (S "oops") }, { start_date := JStr.str (S "2024-01-02") }]).length = 2 ∧
    stopKey (normalizeStop { start_date := JStr.str (S "oops") }) ≤
      stopKey (normalizeStop { start_date := JStr.str (S "2024-01-02") }) := by
  obtain ⟨hlen, hsort, hmin⟩ := load_travel_stops_length_and_sorted
    [{ start_date := JStr.str (S "oops") }, { start_date := JStr.str (S "2024-01-02") }]
  exact ⟨hlen, hmin _ (by simp [load_travel_stops]) (by decide) _ (by simp [load_travel_stops])⟩

/-- Claim C4, counterexample — The claim says the slug stem is the filename
with its *extension* stripped, but the code removes *every* occurrence of
`.md`: on `notes.md-draft.md` the code yields `notes-draft`, while the
claim's rule yields `notes.md-draft`. -/
theorem slugify_replace_all_counterexample :
    slugify (S "notes.md-draft.md") = S "notes-draft" ∧
    claimSlug (S "notes.md-draft.md") = S "notes.md-draft" ∧
    slugify (S "notes.md-draft.md") ≠ claimSlug (S "notes.md-draft.md") := by
  refine ⟨by decide, by decide, by decide⟩

/-- Claim C4, amended — The derived slug is: the basename with every
occurrence of `.md` removed; if that stem contains three or more hyphens
(i.e. splits into four or more segments), everything after the third
hyphen, otherwise the whole stem.  The two filename examples of the claim
hold. -/
theorem slugify_amended_spec :
    (∀ filename : Str, slugify filename = amendedSlug filename) ∧
    slugify (S "2024-03-10-my-trip.md") = S "my-trip" ∧
    slugify (S "2024-03-10.md") = S "2024-03-10" := by
  refine ⟨?_, by decide, by decide⟩
  intro filename
  rcases splitDashMax_spec 3 (replaceMd (rsplitLastSlash filename)) with ⟨h1, h2⟩ | ⟨h1, h2⟩
  · unfold slugify amendedSlug
    rw [h2, if_pos (by omega)]
  · unfold slugify amendedSlug
    rw [h2, if_neg (by omega)]

/-- Claim C5 — For every input string and every `max_len ≥ 1` (the code is
only called with 120): empty input yields the empty string; the collapsed
text consists of nonempty whitespace-free words joined by single spaces;
a collapsed text of length at most `max_len` is returned as-is; and a
longer one is cut to exactly `max_len - 1` characters with a single
ellipsis appended, so the result has length exactly `max_len` and ends
with the ellipsis, with no regard for word boundaries. -/
theorem plain_excerpt_spec :
    ∀ (t : Str) (max_len : Nat), 1 ≤ max_len →
      (t = [] → plain_excerpt t max_len = []) ∧
      (∀ w, w ∈ pySplitWs (t.map fun c => if c = '\n' then ' ' else c) →
        w ≠ [] ∧ ∀ c, c ∈ w → pyIsSpace c = false) ∧
      ((collapseWs t).length ≤ max_len → plain_excerpt t max_len = collapseWs t) ∧
      (max_len < (collapseWs t).length →
        (plain_excerpt t max_len).length = max_len ∧
        (plain_excerpt t max_len).getLastD ' ' = '…' ∧
        plain_excerpt t max_len = (collapseWs t).take (max_len - 1) ++ ['…']) := by
  intro t max_len hml
  refine ⟨?_, ?_, ?_, ?_⟩
  · intro ht
    subst ht
    rfl
  · intro w hw
    exact splitWsAux_words _ [] (by simp) w hw
  · intro hle
    cases ht : t with
    | nil => rfl
    | cons c rest =>
        have hne : t.isEmpty = false := by rw [ht]; rfl
        rw [← ht]
        unfold plain_excerpt
        simp only [hne, Bool.false_eq_true, if_false]
        rw [if_neg (by omega)]
  · intro hlt
    have ht : t ≠ [] := by
      intro h0
      subst h0
      have h1 : (collapseWs ([] : Str)).length = 0 := rfl
      omega
    have hne : t.isEmpty = false := by
      cases t with
      | nil => exact absurd rfl ht
      | cons c rest => rfl
    have hpe : plain_excerpt t max_len = (collapseWs t).take (max_len - 1) ++ ['…'] := by
      unfold plain_excerpt
      simp only [hne, Bool.false_eq_true, if_false]
      rw [if_pos hlt]
    refine ⟨?_, ?_, hpe⟩
    · rw [hpe]
      simp only [List.length_append, List.length_take, List.length_singleton]
      omega
    · rw [hpe]
      simp

/-- Witness for C5: `plain_excerpt` on 200 copies of `a` with limit 120
yields exactly 120 characters ending in the ellipsis, and returns
`"short"` unchanged. -/
theorem plain_excerpt_spec_witness :
    (plain_excerpt (List.replicate 200 'a') 120).length = 120 ∧
    (plain_excerpt (List.replicate 200 'a') 120).getLastD ' ' = '…' ∧
    plain_excerpt (S "short") 120 = S "short" := by
  obtain ⟨-, -, -, hlong⟩ := plain_excerpt_spec (List.replicate 200 'a') 120 (by omega)
  obtain ⟨h1, h2, -⟩ := hlong (by decide)
  obtain ⟨-, -, hshort, -⟩ := plain_excerpt_spec (S "short") 120 (by omega)
  refine ⟨h1, h2, ?_⟩
  rw [hshort (by decide)]
  decide

/-- Claim C6, counterexample — The claim says a whitespace-only `type` field
is defaulted to `"visited"`, but a whitespace-only string is truthy in
Python, so the code strips it to the empty string instead. -/
theorem travel_type_whitespace_counterexample :
    (normalizeStop { type := JStr.str (S "   ") }).type = [] ∧
    (normalizeStop { type := JStr.str (S "   ") }).type ≠ S "visited" := by
  refine ⟨by decide, by decide⟩

/-- Claim C6, amended — The normalized `type` is `"visited"` exactly when
the raw field is absent, `null`, or the empty string; any other string is
merely trimmed — so a whitespace-only raw `type` becomes the empty
string, not `"visited"`. -/
theorem travel_type_default_amended :
    ∀ st : RawStop,
      ((st.type = JStr.absent ∨ st.type = JStr.null ∨ st.type = JStr.str []) →
        (normalizeStop st).type = S "visited") ∧
      (∀ s : Str, st.type = JStr.str s → s ≠ [] →
        (normalizeStop st).type = pyStrip s) := by
  intro st
  constructor
  · intro h
    rw [normalizeStop_type]
    rcases h with h | h | h <;> rw [h] <;> decide
  · intro s hs hne
    rw [normalizeStop_type, hs]
    have hgo : pyGetOr (JStr.str s) (S "visited") = s := by
      cases s with
      | nil => exact absurd rfl hne
      | cons a t => rfl
    rw [hgo]

/-- Witness for C6: a `null` type defaults to `"visited"`, while the
non-blank string `" x "` is trimmed to `"x"`. -/
theorem travel_type_default_amended_witness :
    (normalizeStop { type := JStr.null }).type = S "visited" ∧
    (normalizeStop { type := JStr.str (S " x ") }).type = S "x" := by
  refine ⟨(travel_type_default_amended _).1 (Or.inr (Or.inl rfl)), ?_⟩
  have h := (travel_type_default_amended { type := JStr.str (S " x ") }).2
    (S " x ") rfl (by decide)
  rw [h]
  decide

/-- Claim C7, counterexample — The claim says no failure mode of reading a
content file ever surfaces an error, but the `except` clause catches only
`FileNotFoundError` and `json.JSONDecodeError`: a file whose bytes are
not valid UTF-8 (certainly not valid JSON) makes `json.load` raise
`UnicodeDecodeError`, which propagates to the caller instead of yielding
the default. -/
theorem load_json_undecodable_counterexample :
    load_json (ReadOutcome.undecodableBytes : ReadOutcome (List Int)) [] =
      Except.error PyExc.unicodeDecodeError ∧
    load_json (ReadOutcome.undecodableBytes : ReadOutcome (List Int)) [] ≠
      Except.ok [] := by
  refine ⟨rfl, by simp [load_json]⟩

/-- Claim C7, amended — `load_json` returns the default unchanged when the
file is absent or its decoded text fails JSON parsing, and returns the
decoded value otherwise; it surfaces an error exactly when opening fails
for a reason other than absence or when the bytes cannot be decoded as
UTF-8. -/
theorem load_json_amended_spec :
    ∀ (J : Type) (default v : J) (r : ReadOutcome J),
      load_json ReadOutcome.fileNotFound default = Except.ok default ∧
      load_json ReadOutcome.invalidJson default = Except.ok default ∧
      load_json (ReadOutcome.ok v) default = Except.ok v ∧
      ((load_json r default).isOk = false ↔
        r = ReadOutcome.openError ∨ r = ReadOutcome.undecodableBytes) := by
  intro J default v r
  refine ⟨rfl, rfl, rfl, ?_⟩
  cases r <;> simp [load_json, Except.isOk, Except.toBool]

/-- Claim C10 — The portfolio normalizer is total exactly on records whose
`type`, `title` and `slug` fields are strings where present: an explicit
`null` in one of them makes normalization raise `AttributeError`
(`None.strip()`), which propagates out of `load_portfolio_items`; the
travel normalizer, by contrast, replaces `null` string fields with their
defaults. -/
theorem portfolio_null_raises :
    (∀ it : RawItem, it.type ≠ JStr.null → it.title ≠ JStr.null → it.slug ≠ JStr.null →
      ∃ v, normalizePortfolioItem it = Except.ok v) ∧
    normalizePortfolioItem { type := JStr.null } = Except.error PyExc.attributeError ∧
    load_portfolio_items [{ type := JStr.null }] = Except.error PyExc.attributeError ∧
    (normalizeStop allNullStop).type = S "visited" ∧
    (normalizeStop allNullStop).country = [] ∧
    (normalizeStop allNullStop).notes_md = [] := by
  refine ⟨?_, rfl, rfl, by decide, by decide, by decide⟩
  intro it h1 h2 h3
  obtain ⟨r1, e1⟩ := stripGetD_ok it.type h1
  obtain ⟨r2, e2⟩ := stripGetD_ok it.title h2
  obtain ⟨r3, e3⟩ := stripGetD_ok it.slug h3
  refine ⟨{ type := r1
            title := r2
            slug := r3
            year := jnumGet it.year
            tags := jlistGetD it.tags
            cover_image := jstrGetD it.cover_image (JStr.str [])
            description_md := jstrGetD it.description_md (JStr.str [])
            excerpt := plainExcerptField (jstrGetD it.description_md (JStr.str []))
            images := jlistGetD it.images
            video_url := jstrGetD it.video_url (JStr.str [])
            credits := jlistGetD it.credits }, ?_⟩
  unfold normalizePortfolioItem
  rw [e1, e2, e3]

/-- Witness for C10: a record with all fields absent normalizes
successfully. -/
theorem portfolio_null_raises_witness :
    (normalizePortfolioItem {}).isOk = true := by
  obtain ⟨v, hv⟩ := portfolio_null_raises.1 {} (by decide) (by decide) (by decide)
  rw [hv]
  rfl

end Website

example : Website.days_between (Website.S "2024-01-01") (Website.S "2024-01-01") = 1 := by decide
example : Website.days_between (Website.S "2024-01-05") (Website.S "2024-01-01") = 0 := by decide
example : Website.days_between (Website.S "bad") (Website.S "2024-01-01") = 0 := by decide
example : Website.days_between (Website.S "2024-1-1") (Website.S "2024-1-1") = 1 := by decide
example : Website.parseYmd (Website.S "2024-02-30") = none := by decide
example : Website.parseYmd (Website.S "0000-01-01") = none := by decide
example : Website.parse_date_ymd (Website.S "0001-01-01") = 1 := by decide
example : Website.days_between (Website.S "2024-02-28") (Website.S "2024-03-01") = 3 := by decide
example : Website.slugify (Website.S "2024-03-10-my-trip.md") = Website.S "my-trip" := by decide
example : Website.slugify (Website.S "2024-03-10.md") = Website.S "2024-03-10" := by decide
example : Website.slugify (Website.S "notes.md-draft.md") = Website.S "notes-draft" := by decide
example : Website.claimSlug (Website.S "notes.md-draft.md") = Website.S "notes.md-draft" := by decide
example : (Website.plain_excerpt (Website.S "a b   c") 120) = Website.S "a b c" := by decide
example : (Website.plain_excerpt (List.replicate 200 'a') 120).length = 120 := by decide
example : (Website.plain_excerpt (List.replicate 200 'a') 120).getLastD 'x' = '…' := by decide
example : (Website.normalizeStop { type := .str (Website.S "  ") }).type = [] := by decide
example : (Website.normalizeStop { type := .null }).type = Website.S "visited" := by decide
example :
    (Website.normalizeStop
      { place := .str (Website.S "Rio de Janeiro"),
        start_date := .str (Website.S "2023-05-01") }).id
      = Website.S "rio-de-janeiro-2023-05-01" := by decide
